import Mathlib

/-!
Shallow embedding of `py2d/FOV.py` (polygonal field-of-view computation).

The repository source under verification is the single file `py2d/FOV.py`
(class `Vision`).  That file imports a geometry-primitives module `Math`
(`py2d/Math.py`) which is not part of the sources; every definition below
whose doc comment starts with `Modelled from the spec:` models one of those
missing external primitives from the specification's description of the
geometry-collaborator interface.  All other definitions are direct
translations of the code in `FOV.py`.

Coordinates are modelled over an arbitrary linear ordered field (the Python
code uses floating point; the model is the exact-arithmetic idealization).
Vectors/points are pairs, segments are pairs of points.  Python lists are
Lean lists; Python's negative-index access is modelled by `pyGet`; the two
mutating `while` loops are modelled by fuel-indexed step functions whose fuel
is the loop variant `length - i` (each loop iteration decreases that variant
by exactly one, see `sweepStep_shape`), so the fueled runs compute exactly
the loops' final states.

One defect of the source is modelled explicitly.  Line 104 reads
`return distance_point_lineseg_squared(eye, seg[0], seg[1]) <= radius_squared`
— a bare name.  The file's only import is `import Math` (line 3), every
other collaborator call is qualified (`Math.check_intersect_lineseg_lineseg`
and so on), and no local or module binding of that name exists, so every
invocation of `lineseg_in_radius` raises `NameError`, and the eager
Python 2 `filter` at line 106 invokes it once per segment: `calculate`
completes only when the obstructor segment list is empty.  The definitions
`lineseg_in_radius_checked`, `pyFilter_checked` and `calcPoly_checked` model
this error path (`none` = the uncaught exception); the unchecked
`lineseg_in_radius` and `calcPoly` model the evidently intended binding
`Math.distance_point_lineseg_squared`, which is what the spec describes.
-/

namespace FOV

variable {α : Type*} [LinearOrderedField α] [DecidableEq α]

/-- A 2D point / vector (the external `Vector` class of the geometry library). -/
abbrev Point (α : Type*) := α × α

/-- A line segment: an ordered pair of points. -/
abbrev Seg (α : Type*) := Point α × Point α

/-- Componentwise vector subtraction (`Vector.__sub__`). -/
def vsub (a b : Point α) : Point α := (a.1 - b.1, a.2 - b.2)

/-- Componentwise vector addition (`Vector.__add__`). -/
def vadd (a b : Point α) : Point α := (a.1 + b.1, a.2 + b.2)

/-- Scalar multiplication (`Vector.__mul__`). -/
def smul (t : α) (a : Point α) : Point α := (t * a.1, t * a.2)

/-- Modelled from the spec: squared length of a vector
(`Vector.get_length_squared` of the missing geometry module; §6 lists
"segment-to-point squared-distance" and squared-length among the
primitives consumed from the excluded geometry collaborator). -/
def lengthSq (a : Point α) : α := a.1 * a.1 + a.2 * a.2

/-- Python list access `l[j]`, including negative-index wrap-around
(`l[-1]` is the last element).  Out-of-range access (an `IndexError` in
Python) is totalized to `(0, 0)`; all in-loop accesses of `FOV.py` are
in range. -/
def pyGet (l : List (Point α)) (j : Int) : Point α :=
  let k : Int := if j < 0 then j + l.length else j
  if 0 ≤ k ∧ k < l.length then l.getD k.toNat ((0 : α), (0 : α)) else ((0 : α), (0 : α))

/-- Python's `set` constructor applied to a list of points, as used for
membership and deduplication (`set(self.obs_points + boundary.points)`).
CPython's iteration order over a set is unspecified; the model keeps the
deduplicated elements.  The order only feeds an angular sort downstream. -/
def pySet (l : List (Point α)) : List (Point α) := l.dedup

/-- Modelled from the spec: the parametric line/line intersection primitive
of the missing geometry module (`Math.intersect_line_line_u`): for lines
`p1→p2` and `q1→q2` it returns the parameters `(u1, u2)` of the common
point `p1 + u1*(p2-p1) = q1 + u2*(q2-q1)`, or `none` for parallel lines. -/
def intersect_line_line_u (p1 p2 q1 q2 : Point α) : Option (α × α) :=
  let d := (q2.2 - q1.2) * (p2.1 - p1.1) - (q2.1 - q1.1) * (p2.2 - p1.2)
  if d = 0 then none
  else some (((q2.1 - q1.1) * (p1.2 - q1.2) - (q2.2 - q1.2) * (p1.1 - q1.1)) / d,
             ((p2.1 - p1.1) * (p1.2 - q1.2) - (p2.2 - p1.2) * (p1.1 - q1.1)) / d)

/-- Modelled from the spec: Boolean segment/segment intersection test
(`Math.check_intersect_lineseg_lineseg`, §6 "exact line-segment/line-segment
intersection"): the segments `p1p2` and `q1q2` intersect when the line
parameters both lie in `[0, 1]`. -/
def check_intersect_lineseg_lineseg (p1 p2 q1 q2 : Point α) : Bool :=
  match intersect_line_line_u p1 p2 q1 q2 with
  | none => false
  | some (u1, u2) => decide (0 ≤ u1 ∧ u1 ≤ 1 ∧ 0 ≤ u2 ∧ u2 ≤ 1)

/-- Modelled from the spec: segment/segment intersection point
(`Math.intersect_lineseg_lineseg`): the common point when both line
parameters lie in `[0, 1]`, otherwise `none`. -/
def intersect_lineseg_lineseg (p1 p2 q1 q2 : Point α) : Option (Point α) :=
  match intersect_line_line_u p1 p2 q1 q2 with
  | none => none
  | some (u1, u2) =>
    if 0 ≤ u1 ∧ u1 ≤ 1 ∧ 0 ≤ u2 ∧ u2 ≤ 1 then some (vadd p1 (smul u1 (vsub p2 p1)))
    else none

/-- Modelled from the spec: all pairwise intersection points of two segment
lists (`Math.intersect_linesegs_linesegs`), in nested-loop order. -/
def intersect_linesegs_linesegs (segs1 segs2 : List (Seg α)) : List (Point α) :=
  (segs1.map fun s1 =>
    segs2.filterMap fun s2 => intersect_lineseg_lineseg s1.1 s1.2 s2.1 s2.2).flatten

/-- Modelled from the spec: segment/ray intersection
(`Math.intersect_lineseg_ray`).  The ray is defined by the eye `pr1` and the
aimed point `pr2`; per §4.2 step 6 it is cast "from eye through current", and
per the §8 no-obstructor scenario (output exactly the boundary corners, no
inserted points) a hit must lie at or beyond the aimed point (`u2 ≥ 1`) and
the aimed point itself is not a hit. -/
def intersect_lineseg_ray (p1 p2 pr1 pr2 : Point α) : Option (Point α) :=
  match intersect_line_line_u p1 p2 pr1 pr2 with
  | none => none
  | some (u1, u2) =>
    if 0 ≤ u1 ∧ u1 ≤ 1 ∧ 1 ≤ u2 then
      let pos := vadd p1 (smul u1 (vsub p2 p1))
      if pos = pr2 then none else some pos
    else none

/-- Modelled from the spec: ray intersections against a list of segments
(`Math.intersect_linesegs_ray`). -/
def intersect_linesegs_ray (segs : List (Seg α)) (pr1 pr2 : Point α) : List (Point α) :=
  segs.filterMap fun s => intersect_lineseg_ray s.1 s.2 pr1 pr2

/-- The closed edge loop of a polygon's vertex list, exactly as
`FOV.py` line 112 builds it:
`zip(points, points[1:]) + [(points[-1], points[0])]`. -/
def boundary_edges (pts : List (Point α)) : List (Seg α) :=
  pts.zip pts.tail ++ [(pyGet pts (-1), pyGet pts 0)]

/-- Modelled from the spec: ray intersections against a closed polygon
(`Math.intersect_poly_ray`), i.e. against the polygon's closed edge loop. -/
def intersect_poly_ray (pts : List (Point α)) (pr1 pr2 : Point α) : List (Point α) :=
  intersect_linesegs_ray (boundary_edges pts) pr1 pr2

/-- Modelled from the spec: squared distance from a point to a line segment
(`Math.distance_point_lineseg_squared`, §6 "segment-to-point
squared-distance"): squared distance to the projection of the point onto the
segment, the projection parameter clamped to `[0, 1]`.  For a zero-length
segment the parameter is `0` (distance to the endpoint). -/
def distance_point_lineseg_squared (p a b : Point α) : α :=
  let u := ((p.1 - a.1) * (b.1 - a.1) + (p.2 - a.2) * (b.2 - a.2)) / lengthSq (vsub b a)
  let uc := max 0 (min 1 u)
  lengthSq (vsub p (vadd a (smul uc (vsub b a))))

/-- Modelled from the spec: the strict angular order around the origin used
by the angular sort (`Vector.get_angle` / `Polygon.sort_around`, §6 "angular
sort of a point set around a pivot").  Python sorts ascending by
`atan2(y, x) ∈ (-π, π]`; this is that order expressed exactly: first the
open lower half plane, then the nonnegative x-axis (angle 0, including the
zero vector), then the open upper half plane, then the negative x-axis
(angle π); within an open half plane the cross product decides. -/
def angular_class (w : Point α) : Nat :=
  if w.2 < 0 then 0 else if 0 < w.2 then 2 else if 0 ≤ w.1 then 1 else 3

/-- Modelled from the spec: strict comparison of two vectors by angle (see
`angular_class`). -/
def ang_lt (u v : Point α) : Bool :=
  decide (angular_class u < angular_class v) ||
    (decide (angular_class u = angular_class v) &&
      decide (0 < u.1 * v.2 - u.2 * v.1))

/-- Stable insertion of an element into a list sorted by the strict order
`lt`: the element goes before the first entry not strictly below it. -/
def ins_sorted (lt : Point α → Point α → Bool) (x : Point α) :
    List (Point α) → List (Point α)
  | [] => [x]
  | y :: ys => if lt y x then y :: ins_sorted lt x ys else x :: y :: ys

/-- Modelled from the spec: a stable ascending sort by the strict key order
`lt` (Python's `list.sort` / `sorted` are stable; a stable sort w.r.t. a
fixed key order is unique, so this insertion sort computes the same list). -/
def sort_points (lt : Point α → Point α → Bool) (l : List (Point α)) : List (Point α) :=
  l.foldr (ins_sorted lt) []

/-- Modelled from the spec: `Polygon.sort_around(center)` sorts the vertex
list by angle of `p - center` around the pivot. -/
def sort_around (center : Point α) (l : List (Point α)) : List (Point α) :=
  sort_points (fun a b => ang_lt (vsub a center) (vsub b center)) l

/-- Modelled from the spec: the §4.2 precondition that the boundary polygon
"encloses" the eye, as an even-odd (crossing-number) point-in-polygon test
over the boundary's closed edge loop; the point-in-polygon predicate belongs
to the excluded geometry collaborator. -/
def encloses (boundary : List (Point α)) (eye : Point α) : Bool :=
  ((boundary_edges boundary).countP fun s =>
    (decide (s.1.2 ≤ eye.2) != decide (s.2.2 ≤ eye.2)) &&
      decide (eye.1 < s.1.1 + (eye.2 - s.1.2) * (s.2.1 - s.1.1) / (s.2.2 - s.1.2))) % 2 == 1

/-- The cache written by `Vision.calculate`: the fields `cached_position`,
`cached_radius`, `cached_vision` of the Python object.  They are always
assigned together (all `None` in `set_obstructors`, all set in `calculate`),
so the model collapses them into one optional record. -/
structure Cache (α : Type*) where
  position : Point α
  radius : α
  vision : List (Point α)

/-- The state of a `Vision` object: flattened obstructor points, flattened
obstructor segments, and the cache. -/
structure Vision (α : Type*) where
  obs_points : List (Point α)
  obs_segs : List (Seg α)
  cached : Option (Cache α)

/-- The local helper `flatten_list` of `Vision.set_obstructors`:
`reduce(lambda x,y: x+y, l)` on a nonempty list, `[]` on an empty one. -/
def flatten_list {β : Type*} : List (List β) → List β
  | [] => []
  | x :: xs => xs.foldl (· ++ ·) x

/-- One polyline's consecutive vertex pairs: `zip(strip, strip[1:])`. -/
def strip_segs (strip : List (Point α)) : List (Seg α) :=
  strip.zip strip.tail

/-- `Vision.set_obstructors` (FOV.py lines 20-42): flatten the polylines to
a point list, convert each polyline to its consecutive-pair segments and
flatten, and reset all three cache fields to `None`. -/
def set_obstructors (obstructors : List (List (Point α))) : Vision α :=
  { obs_points := flatten_list obstructors
    obs_segs := flatten_list (obstructors.map strip_segs)
    cached := none }

/-- The local helper `point_on_lineseg` of `Vision.calculate` (lines 82-84):
the cross product of `p - a` with `b - a` is below the `0.01` tolerance and
`p` lies in the bounding box of `a` and `b`. -/
def point_on_lineseg (a b p : Point α) : Bool :=
  decide (|(p.2 - a.2) * (b.1 - a.1) - (p.1 - a.1) * (b.2 - a.2)| < 1 / 100 ∧
    min a.1 b.1 ≤ p.1 ∧ p.1 ≤ max a.1 b.1 ∧ min a.2 b.2 ≤ p.2 ∧ p.2 ≤ max a.2 b.2)

/-- The local helper `sub_segment` (lines 79-80): both endpoints of `small`
lie on the segment `big`. -/
def sub_segment (small big : Seg α) : Bool :=
  point_on_lineseg big.1 big.2 small.1 && point_on_lineseg big.1 big.2 small.2

/-- The local helper `segment_in_obs` (lines 86-90): `seg` is a sub-segment
of some segment of the given obstructor segment list (the Python closure
reads `self.obs_segs`, the full unpruned list). -/
def segment_in_obs (obs : List (Seg α)) (seg : Seg α) : Bool :=
  obs.any fun ls => sub_segment seg ls

/-- The local helper `check_visibility` (lines 92-101), with the external
intersection predicate `Math.check_intersect_lineseg_lineseg` abstracted as
the argument `ifn`: return `False` if `p` is farther than the radius and not
a boundary point; return `False` if some segment of `near` intersects the
sight line `eye→p` at other than its own endpoint `p`; else `True`. -/
def check_visibility (ifn : Point α → Point α → Point α → Point α → Bool)
    (eye : Point α) (rsq : α) (bpts : List (Point α)) (near : List (Seg α))
    (p : Point α) : Bool :=
  if lengthSq (vsub eye p) > rsq ∧ p ∉ bpts then false
  else near.all fun s => !(ifn eye p s.1 s.2) || decide (s.1 = p) || decide (s.2 = p)

/-- The local helper `lineseg_in_radius` (lines 103-104) under the
evidently intended binding of its distance call: the squared
point-to-segment distance from the eye is at most the squared radius.
CAUTION: in the source as written, line 104 calls the bare name
`distance_point_lineseg_squared`, which is unbound (the file only does
`import Math` and defines no such local), so every actual invocation of
this helper raises `NameError`; the as-written crashing behavior is
modelled by `lineseg_in_radius_checked` and `calcPoly_checked` below, while
this definition models the intended `Math.distance_point_lineseg_squared`
call that the spec describes. -/
def lineseg_in_radius (eye : Point α) (rsq : α) (seg : Seg α) : Bool :=
  decide (distance_point_lineseg_squared eye seg.1 seg.2 ≤ rsq)

/-- Line 109 of `calculate`: the directly visible candidate points,
`list(filter(check_visibility, set(self.obs_points + boundary.points)))`. -/
def visible_points_of (ifn : Point α → Point α → Point α → Point α → Bool)
    (eye : Point α) (rsq : α) (bpts obs_pts : List (Point α))
    (near : List (Seg α)) : List (Point α) :=
  (pySet (obs_pts ++ bpts)).filter (check_visibility ifn eye rsq bpts near)

/-- One pass of the inner `while` of the crossing-point visibility filter
(lines 119-128) for a fixed obstructor segment `(a, b)`, fuel-indexed: at
index `i`, if `boundary_intersection_points[i]` is not on the segment and the
sight line to it crosses the segment, `list.remove` the point (Python removes
the first occurrence of the value), else advance `i`.  Each iteration
decreases `length - i` by one, so fuel `length` runs the loop to
completion. -/
def cf_while (eye a b : Point α) : Nat → List (Point α) → Nat → List (Point α)
  | 0, l, _ => l
  | fuel + 1, l, i =>
    if i < l.length then
      let p := l.getD i ((0 : α), (0 : α))
      if ¬ point_on_lineseg a b p ∧ check_intersect_lineseg_lineseg eye p a b then
        cf_while eye a b fuel (l.erase p) i
      else cf_while eye a b fuel l (i + 1)
    else l

/-- The crossing-point visibility filter (lines 119-128): the inner `while`
run once per pruned obstructor segment, in order. -/
def crossing_filter (eye : Point α) (segs : List (Seg α)) (l : List (Point α)) :
    List (Point α) :=
  segs.foldl (fun acc seg => cf_while eye seg.1 seg.2 acc.length acc 0) l

/-- The fixed data of the shadow-edge sweep loop (lines 136-180): the eye,
the radius and its square, the radius-pruned segments (used for the ray
casts, line 143), the full obstructor segments (used by `segment_in_obs`),
the boundary vertex list, and the external clamp
`(closest - eye).normalize() * radius + eye` of line 152 (`Vector.normalize`
belongs to the missing geometry module and is kept abstract; it is only
applied when the closest hit lies beyond the radius). -/
structure SweepCtx (α : Type*) where
  eye : Point α
  radius : α
  rsq : α
  near : List (Seg α)
  full : List (Seg α)
  bpts : List (Point α)
  normClamp : Point α → Point α → α → Point α

/-- The mutable state of the sweep loop: the polygon vertex list and the
walk index. -/
structure SweepState (α : Type*) where
  pts : List (Point α)
  i : Nat

/-- Lines 145-152: the closest ray hit, clamped to the radius when it lies
farther than the radius from the eye. -/
def clamp_closest (ctx : SweepCtx α) (c0 : Point α) : Point α :=
  if lengthSq (vsub ctx.eye c0) > ctx.rsq then ctx.normClamp ctx.eye c0 ctx.radius else c0

/-- One iteration of the sweep loop body (lines 137-180), assuming
`i < len(poly.points)`:  take `prev`, `current`, `next`; cast the ray from
the eye through `current` against the pruned segments and the boundary; if
there are hits, clamp the closest one and insert it before `current` (Case A,
with the look-back removal of a spurious earlier insert) or after `current`
(Case B) according to the `segment_in_obs` tests; finally advance the index
(line 180). -/
def sweepStep (ctx : SweepCtx α) (st : SweepState α) : SweepState α :=
  let pts := st.pts
  let i := st.i
  let p := pyGet pts ((i : Int) - 1)
  let c := pyGet pts (i : Int)
  let n := pyGet pts (((i + 1) % pts.length : Nat) : Int)
  let inters := intersect_linesegs_ray ctx.near ctx.eye c ++ intersect_poly_ray ctx.bpts ctx.eye c
  if inters.isEmpty then ⟨pts, i + 1⟩
  else
    let c0 := (sort_points
      (fun x y => decide (lengthSq (vsub x ctx.eye) < lengthSq (vsub y ctx.eye))) inters).headD
      ((0 : α), (0 : α))
    let closest := clamp_closest ctx c0
    let sio_pc := segment_in_obs ctx.full (p, c)
    let sio_cn := segment_in_obs ctx.full (c, n)
    if !sio_pc then
      let pts1 := pts.insertIdx i closest
      let i1 := i + 1
      if segment_in_obs ctx.full (pyGet pts1 ((i1 : Int) - 3), pyGet pts1 ((i1 : Int) - 1)) then
        ⟨pts1.erase (pyGet pts1 ((i1 : Int) - 2)), i1 - 1 + 1⟩
      else ⟨pts1, i1 + 1⟩
    else if !sio_cn then ⟨pts.insertIdx (i + 1) closest, i + 1 + 1⟩
    else ⟨pts, i + 1⟩

/-- The sweep loop `while i < len(poly.points)` as a fuel-indexed iteration
of `sweepStep`.  Each iteration decreases `length - i` by exactly one
(`sweepStep_shape`), so fuel `length - i` runs the loop to completion. -/
def sweepRun (ctx : SweepCtx α) : Nat → SweepState α → SweepState α
  | 0, st => st
  | fuel + 1, st =>
    if st.i < st.pts.length then sweepRun ctx fuel (sweepStep ctx st) else st

/-- The polygon vertex list right after the sweep loop (line 180 fallen
through), before the wrap-around fix-up: candidate selection (line 109),
boundary crossings (line 112), crossing filter (lines 119-128), assembly and
angular sort (lines 130-134), then the sweep (lines 136-180) started at
index 0 with fuel equal to the list length. -/
def pre_fix_points (nc : Point α → Point α → α → Point α)
    (near full : List (Seg α)) (obs_pts : List (Point α))
    (eye : Point α) (radius : α) (boundary : List (Point α)) : List (Point α) :=
  let rsq := radius * radius
  let visible := visible_points_of check_intersect_lineseg_lineseg eye rsq boundary obs_pts near
  let bip := crossing_filter eye near
    (intersect_linesegs_linesegs near (boundary_edges boundary))
  let pts := sort_around eye (visible ++ bip)
  (sweepRun ⟨eye, radius, rsq, near, full, boundary, nc⟩ pts.length ⟨pts, 0⟩).pts

/-- The wrap-around fix-up (lines 185-187): if the segment from the last
vertex to the second vertex is embedded in an obstructor, swap the first two
vertices (the simultaneous assignment
`points[0], points[1] = points[1], points[0]`). -/
def final_fix (full : List (Seg α)) (pts : List (Point α)) : List (Point α) :=
  if segment_in_obs full (pyGet pts (-1), pyGet pts 1) then
    (pts.set 0 (pyGet pts 1)).set 1 (pyGet pts 0)
  else pts

/-- The polygon computed by `Vision.calculate` (lines 61-192) from explicit
near/full segment lists: the post-sweep list with the wrap-around fix-up
applied (the fix-up's `segment_in_obs` reads the full list). -/
def calculate_core (nc : Point α → Point α → α → Point α)
    (near full : List (Seg α)) (obs_pts : List (Point α))
    (eye : Point α) (radius : α) (boundary : List (Point α)) : List (Point α) :=
  final_fix full (pre_fix_points nc near full obs_pts eye radius boundary)

/-- The polygon returned by `Vision.calculate`: the core run with the
radius-pruned segment list of line 106 as the near list. -/
def calcPoly (nc : Point α → Point α → α → Point α) (s : Vision α)
    (eye : Point α) (radius : α) (boundary : List (Point α)) : List (Point α) :=
  calculate_core nc (s.obs_segs.filter (lineseg_in_radius eye (radius * radius)))
    s.obs_segs s.obs_points eye radius boundary

/-- The variant of `calculate` in which every occurrence of the pruned list
(visibility test, boundary intersection, crossing filter, ray sweep) uses
the full unpruned segment list instead. -/
def calcPolyUnpruned (nc : Point α → Point α → α → Point α) (s : Vision α)
    (eye : Point α) (radius : α) (boundary : List (Point α)) : List (Point α) :=
  calculate_core nc s.obs_segs s.obs_segs s.obs_points eye radius boundary

/-- The local helper `lineseg_in_radius` (lines 103-104) as the source
actually executes: its body names `distance_point_lineseg_squared`, a bare
unbound name (the file's only import is `import Math` and there is no local
or module binding), so every invocation raises `NameError`, modelled as
`none`. -/
def lineseg_in_radius_checked (eye : Point α) (rsq : α) (seg : Seg α) : Option Bool :=
  none

/-- Python 2's eager `filter(f, l)` for a predicate that may raise: the
result is `none` (the exception propagates) as soon as `f` raises on an
element, and otherwise the list of elements on which `f` returned true. -/
def pyFilter_checked {β : Type*} (f : β → Option Bool) : List β → Option (List β)
  | [] => some []
  | x :: xs =>
    match f x with
    | none => none
    | some b =>
      match pyFilter_checked f xs with
      | none => none
      | some ys => some (if b then x :: ys else ys)

/-- The polygon computation of `Vision.calculate` as the source actually
executes, with the radius pruning of line 106 checked for the `NameError`
raised by `lineseg_in_radius` (unbound `distance_point_lineseg_squared` at
line 104): `none` models the uncaught exception — raised at line 106,
before `visible_points` is ever built at line 109 — and `some` the returned
polygon.  The exception fires exactly when the obstructor segment list is
nonempty, since Python 2's eager `filter` applies the helper once per
element. -/
def calcPoly_checked (nc : Point α → Point α → α → Point α) (s : Vision α)
    (eye : Point α) (radius : α) (boundary : List (Point α)) : Option (List (Point α)) :=
  match pyFilter_checked (lineseg_in_radius_checked eye (radius * radius)) s.obs_segs with
  | none => none
  | some near => some (calculate_core nc near s.obs_segs s.obs_points eye radius boundary)

/-- `Vision.calculate` at the state level: compute the polygon, store the
eye, radius and polygon in the cache fields (lines 69-70 and 190), and
return the polygon (line 192). -/
def calculate (nc : Point α → Point α → α → Point α) (s : Vision α)
    (eye : Point α) (radius : α) (boundary : List (Point α)) :
    List (Point α) × Vision α :=
  let poly := calcPoly nc s eye radius boundary
  (poly, { s with cached := some ⟨eye, radius, poly⟩ })

/-- The staleness test of `Vision.get_vision` (line 55):
`self.cached_vision == None or (self.cached_position - eye).get_length_squared() > 1`. -/
def needs_recalc (s : Vision α) (eye : Point α) : Bool :=
  match s.cached with
  | none => true
  | some c => decide (1 < lengthSq (vsub c.position eye))

/-- `Vision.get_vision` (lines 44-58): recalculate when the staleness test
fires, then return `self.cached_vision` (paired with the resulting state). -/
def get_vision (nc : Point α → Point α → α → Point α) (s : Vision α)
    (eye : Point α) (radius : α) (boundary : List (Point α)) :
    Option (List (Point α)) × Vision α :=
  let s1 := if needs_recalc s eye then (calculate nc s eye radius boundary).2 else s
  (Option.map Cache.vision s1.cached, s1)

/-- Modelled from the spec: `Vector.get_length` of the missing geometry
module, the square root of the squared length (over `ℝ`). -/
noncomputable def get_length (v : Point ℝ) : ℝ := Real.sqrt (lengthSq v)

/-- Modelled from the spec: `Vector.normalize` of the missing geometry
module (§6 "vector normalize/scale"): the vector divided by its length. -/
noncomputable def normalize (v : Point ℝ) : Point ℝ :=
  (v.1 / get_length v, v.2 / get_length v)

/-- The radius clamp of line 152 over `ℝ`:
`(closest - eye).normalize() * radius + eye`. -/
noncomputable def norm_clamp_r (eye c : Point ℝ) (radius : ℝ) : Point ℝ :=
  vadd (smul radius (normalize (vsub c eye))) eye

/-- The sweep context `calculate` builds over `ℝ`, with the real
normalize-and-scale clamp. -/
noncomputable def sweepCtxR (eye : Point ℝ) (radius : ℝ)
    (near full : List (Seg ℝ)) (bpts : List (Point ℝ)) : SweepCtx ℝ :=
  ⟨eye, radius, radius * radius, near, full, bpts, norm_clamp_r⟩

attribute [local semireducible] Rat.mul Rat.add Rat.sub Rat.inv

theorem sweepRun_zero (ctx : SweepCtx α) (st : SweepState α) : sweepRun ctx 0 st = st := rfl

theorem sweepRun_succ_of_lt (ctx : SweepCtx α) (st : SweepState α) (fuel : Nat)
    (h : st.i < st.pts.length) :
    sweepRun ctx (fuel + 1) st = sweepRun ctx fuel (sweepStep ctx st) := by
  rw [sweepRun, if_pos h]

theorem sweepRun_of_done (ctx : SweepCtx α) (st : SweepState α) (fuel : Nat)
    (h : ¬ st.i < st.pts.length) : sweepRun ctx fuel st = st := by
  cases fuel with
  | zero => rfl
  | succ n => rw [sweepRun, if_neg h]

theorem sweepStep_of_no_hit (eye : Point α) (radius rsq : α) (near full : List (Seg α))
    (bpts : List (Point α)) (f : Point α → Point α → α → Point α) (st : SweepState α)
    (h : (intersect_linesegs_ray near eye (pyGet st.pts (st.i : Int)) ++
      intersect_poly_ray bpts eye (pyGet st.pts (st.i : Int))).isEmpty = true) :
    sweepStep ⟨eye, radius, rsq, near, full, bpts, f⟩ st = ⟨st.pts, st.i + 1⟩ := by
  rw [sweepStep]
  simp only [h, if_true]

theorem pyGet_mem (l : List (Point α)) (j : Int) (hlow : -(l.length : Int) ≤ j)
    (hhigh : j < (l.length : Int)) : pyGet l j ∈ l := by
  simp only [pyGet]
  by_cases hj : j < 0
  · rw [if_pos hj, if_pos ⟨by omega, by omega⟩]
    have hk : (j + (l.length : Int)).toNat < l.length := by omega
    rw [List.getD_eq_getElem?_getD, List.getElem?_eq_getElem hk]
    simp only [Option.getD_some]
    exact List.getElem_mem hk
  · rw [if_neg hj, if_pos ⟨by omega, by omega⟩]
    have hk : j.toNat < l.length := by omega
    rw [List.getD_eq_getElem?_getD, List.getElem?_eq_getElem hk]
    simp only [Option.getD_some]
    exact List.getElem_mem hk

theorem sweepStep_shape (ctx : SweepCtx α) (st : SweepState α) (h : st.i < st.pts.length) :
    ((sweepStep ctx st).i = st.i + 1 ∧ (sweepStep ctx st).pts.length = st.pts.length) ∨
      ((sweepStep ctx st).i = st.i + 2 ∧ (sweepStep ctx st).pts.length = st.pts.length + 1) := by
  have hins : st.i ≤ st.pts.length := le_of_lt h
  rw [sweepStep]
  split
  · exact Or.inl ⟨rfl, rfl⟩
  · dsimp only
    split
    · split
      · refine Or.inl ⟨rfl, ?_⟩
        have hlen : (st.pts.insertIdx st.i
            (clamp_closest ctx ((sort_points (fun x y =>
              decide (lengthSq (vsub x ctx.eye) < lengthSq (vsub y ctx.eye)))
              (intersect_linesegs_ray ctx.near ctx.eye (pyGet st.pts (st.i : Int)) ++
                intersect_poly_ray ctx.bpts ctx.eye (pyGet st.pts (st.i : Int)))).headD
              ((0 : α), (0 : α))))).length = st.pts.length + 1 :=
          List.length_insertIdx _ _ hins
        rw [List.length_erase_of_mem (pyGet_mem _ _ (by rw [hlen]; omega) (by rw [hlen]; omega)),
          hlen]
        omega
      · refine Or.inr ⟨rfl, List.length_insertIdx _ _ hins⟩
    · split
      · refine Or.inr ⟨rfl, List.length_insertIdx _ _ (by omega)⟩
      · exact Or.inl ⟨rfl, rfl⟩

theorem sweepRun_reaches_done (g : Nat) (ctx : SweepCtx α) :
    ∀ st : SweepState α, st.pts.length ≤ st.i + g →
      (sweepRun ctx g st).pts.length ≤ (sweepRun ctx g st).i := by
  induction g with
  | zero => intro st hst; simpa [sweepRun] using hst
  | succ n ih =>
    intro st hst
    rw [sweepRun]
    by_cases hlt : st.i < st.pts.length
    · rw [if_pos hlt]
      apply ih
      rcases sweepStep_shape ctx st hlt with ⟨hi, hl⟩ | ⟨hi, hl⟩ <;> omega
    · rw [if_neg hlt]; omega

theorem sweepRun_add (ctx : SweepCtx α) (m : Nat) :
    ∀ (n : Nat) (st : SweepState α), sweepRun ctx (m + n) st = sweepRun ctx m (sweepRun ctx n st) := by
  intro n
  induction n with
  | zero => intro st; rfl
  | succ k ih =>
    intro st
    rw [show m + (k + 1) = (m + k) + 1 from rfl, sweepRun, sweepRun]
    by_cases hlt : st.i < st.pts.length
    · rw [if_pos hlt, if_pos hlt, ih]
    · rw [if_neg hlt, if_neg hlt, sweepRun_of_done _ _ _ hlt]

/-- C5: For every finite input (any sweep context and any starting state),
the shadow-edge sweep loop terminates: although iterations may insert a
point and Case A may remove a just-inserted point and step the walk index
back, after finitely many iterations the walk index reaches the end of the
(mutated) vertex list — and the run is then stable under any further fuel. -/
theorem sweep_loop_terminates (ctx : SweepCtx α) (st : SweepState α) :
    ∃ n : Nat, (sweepRun ctx n st).pts.length ≤ (sweepRun ctx n st).i ∧
      ∀ m : Nat, sweepRun ctx (m + n) st = sweepRun ctx n st := by
  refine ⟨st.pts.length, sweepRun_reaches_done _ _ _ (by omega), fun m => ?_⟩
  rw [sweepRun_add, sweepRun_of_done]
  have := sweepRun_reaches_done st.pts.length ctx st (by omega)
  omega

/-- C2: with no obstructors, eye `(0, 0)`, radius `5`, and the boundary the
axis-aligned square of half-width 5 centered at the origin, `calculate`
returns exactly the square's 4 corner points in angular order around the
eye (ascending `atan2` order, starting at the third quadrant), whatever the
external normalize-and-scale clamp is (it is never invoked) and for either
cyclic presentation of the square's vertex list. -/
theorem calculate_no_obstructors_square (nc : Point ℚ → Point ℚ → ℚ → Point ℚ) :
    calcPoly nc (set_obstructors []) ((0 : ℚ), (0 : ℚ)) 5
        [(-5, -5), (5, -5), (5, 5), (-5, 5)] = [(-5, -5), (5, -5), (5, 5), (-5, 5)] ∧
      calcPoly nc (set_obstructors []) ((0 : ℚ), (0 : ℚ)) 5
        [(5, 5), (-5, 5), (-5, -5), (5, -5)] = [(-5, -5), (5, -5), (5, 5), (-5, 5)] := by
  constructor
  · have hstage : sort_around ((0 : ℚ), (0 : ℚ))
        (visible_points_of check_intersect_lineseg_lineseg ((0 : ℚ), (0 : ℚ)) (5 * 5)
          [(-5, -5), (5, -5), (5, 5), (-5, 5)]
          (set_obstructors ([] : List (List (Point ℚ)))).obs_points
          ((set_obstructors ([] : List (List (Point ℚ)))).obs_segs.filter
            (lineseg_in_radius ((0 : ℚ), (0 : ℚ)) (5 * 5))) ++
         crossing_filter ((0 : ℚ), (0 : ℚ))
          ((set_obstructors ([] : List (List (Point ℚ)))).obs_segs.filter
            (lineseg_in_radius ((0 : ℚ), (0 : ℚ)) (5 * 5)))
          (intersect_linesegs_linesegs
            ((set_obstructors ([] : List (List (Point ℚ)))).obs_segs.filter
              (lineseg_in_radius ((0 : ℚ), (0 : ℚ)) (5 * 5)))
            (boundary_edges [(-5, -5), (5, -5), (5, 5), (-5, 5)]))) =
        [(-5, -5), (5, -5), (5, 5), (-5, 5)] := by decide
    rw [calcPoly, calculate_core, pre_fix_points, hstage]
    rw [show ([((-5 : ℚ), (-5 : ℚ)), (5, -5), (5, 5), (-5, 5)] : List (Point ℚ)).length = 3 + 1
      from rfl]
    rw [sweepRun_succ_of_lt _ _ _ (by decide), sweepStep_of_no_hit _ _ _ _ _ _ _ _ (by decide)]
    rw [show (3 : Nat) = 2 + 1 from rfl]
    rw [sweepRun_succ_of_lt _ _ _ (by decide), sweepStep_of_no_hit _ _ _ _ _ _ _ _ (by decide)]
    rw [show (2 : Nat) = 1 + 1 from rfl]
    rw [sweepRun_succ_of_lt _ _ _ (by decide), sweepStep_of_no_hit _ _ _ _ _ _ _ _ (by decide)]
    rw [show (1 : Nat) = 0 + 1 from rfl]
    rw [sweepRun_succ_of_lt _ _ _ (by decide), sweepStep_of_no_hit _ _ _ _ _ _ _ _ (by decide)]
    rw [sweepRun_zero]
    decide
  · have hstage : sort_around ((0 : ℚ), (0 : ℚ))
        (visible_points_of check_intersect_lineseg_lineseg ((0 : ℚ), (0 : ℚ)) (5 * 5)
          [(5, 5), (-5, 5), (-5, -5), (5, -5)]
          (set_obstructors ([] : List (List (Point ℚ)))).obs_points
          ((set_obstructors ([] : List (List (Point ℚ)))).obs_segs.filter
            (lineseg_in_radius ((0 : ℚ), (0 : ℚ)) (5 * 5))) ++
         crossing_filter ((0 : ℚ), (0 : ℚ))
          ((set_obstructors ([] : List (List (Point ℚ)))).obs_segs.filter
            (lineseg_in_radius ((0 : ℚ), (0 : ℚ)) (5 * 5)))
          (intersect_linesegs_linesegs
            ((set_obstructors ([] : List (List (Point ℚ)))).obs_segs.filter
              (lineseg_in_radius ((0 : ℚ), (0 : ℚ)) (5 * 5)))
            (boundary_edges [(5, 5), (-5, 5), (-5, -5), (5, -5)]))) =
        [(-5, -5), (5, -5), (5, 5), (-5, 5)] := by decide
    rw [calcPoly, calculate_core, pre_fix_points, hstage]
    rw [show ([((-5 : ℚ), (-5 : ℚ)), (5, -5), (5, 5), (-5, 5)] : List (Point ℚ)).length = 3 + 1
      from rfl]
    rw [sweepRun_succ_of_lt _ _ _ (by decide), sweepStep_of_no_hit _ _ _ _ _ _ _ _ (by decide)]
    rw [show (3 : Nat) = 2 + 1 from rfl]
    rw [sweepRun_succ_of_lt _ _ _ (by decide), sweepStep_of_no_hit _ _ _ _ _ _ _ _ (by decide)]
    rw [show (2 : Nat) = 1 + 1 from rfl]
    rw [sweepRun_succ_of_lt _ _ _ (by decide), sweepStep_of_no_hit _ _ _ _ _ _ _ _ (by decide)]
    rw [show (1 : Nat) = 0 + 1 from rfl]
    rw [sweepRun_succ_of_lt _ _ _ (by decide), sweepStep_of_no_hit _ _ _ _ _ _ _ _ (by decide)]
    rw [sweepRun_zero]
    decide

/-- C9: `calculate` is deterministic and idempotent: its returned polygon is
a function of the obstructor data and arguments only, the only state it
changes is the cache triple (position, radius, vision), and a second call on
the resulting state with identical arguments returns the identical vertex
sequence. -/
theorem calculate_idempotent (nc : Point α → Point α → α → Point α) (s : Vision α)
    (eye : Point α) (radius : α) (boundary : List (Point α)) :
    (calculate nc s eye radius boundary).2 =
        { s with cached := some ⟨eye, radius, (calculate nc s eye radius boundary).1⟩ } ∧
      (calculate nc (calculate nc s eye radius boundary).2 eye radius boundary).1 =
        (calculate nc s eye radius boundary).1 := by
  exact ⟨rfl, rfl⟩

theorem pyGet_ofNat (l : List (Point α)) (n : Nat) (h : n < l.length) :
    pyGet l (n : Int) = l.getD n ((0 : α), (0 : α)) := by
  simp only [pyGet]
  rw [if_neg (show ¬ ((n : Int) < 0) by omega),
    if_pos (show (0 : Int) ≤ (n : Int) ∧ (n : Int) < (l.length : Int) by constructor <;> omega),
    Int.toNat_natCast]

theorem pyGet_cons_zero (a b : Point α) (rest : List (Point α)) :
    pyGet (a :: b :: rest) (0 : Int) = a := by
  have h := pyGet_ofNat (a :: b :: rest) 0 (by simp)
  simpa using h

theorem pyGet_cons_one (a b : Point α) (rest : List (Point α)) :
    pyGet (a :: b :: rest) (1 : Int) = b := by
  have h := pyGet_ofNat (a :: b :: rest) 1 (by simp [List.length_cons])
  simpa using h

theorem set_swap01 (l : List (Point α)) (h : 1 < l.length) :
    (l.set 0 (pyGet l 1)).set 1 (pyGet l 0) = pyGet l 1 :: pyGet l 0 :: l.drop 2 := by
  match l, h with
  | a :: b :: rest, _ =>
    rw [pyGet_cons_zero, pyGet_cons_one]
    rfl

/-- C7: after the shadow-edge sweep finishes, if the segment from the last
vertex of the post-sweep polygon to its second vertex is fully embedded in
some obstructor segment then `calculate` swaps the first two vertices;
otherwise the post-sweep vertex order is returned unchanged. -/
theorem calculate_wrap_fixup (nc : Point α → Point α → α → Point α)
    (near full : List (Seg α)) (obs_pts : List (Point α)) (eye : Point α) (radius : α)
    (boundary : List (Point α))
    (h : 1 < (pre_fix_points nc near full obs_pts eye radius boundary).length) :
    calculate_core nc near full obs_pts eye radius boundary =
      if segment_in_obs full
          (pyGet (pre_fix_points nc near full obs_pts eye radius boundary) (-1),
            pyGet (pre_fix_points nc near full obs_pts eye radius boundary) 1) then
        pyGet (pre_fix_points nc near full obs_pts eye radius boundary) 1 ::
          pyGet (pre_fix_points nc near full obs_pts eye radius boundary) 0 ::
            (pre_fix_points nc near full obs_pts eye radius boundary).drop 2
      else pre_fix_points nc near full obs_pts eye radius boundary := by
  rw [calculate_core, final_fix]
  split
  · exact set_swap01 _ h
  · rfl

/-- C6: `get_vision` recomputes exactly when there is no cached result or
the squared displacement of the eye from the cached position exceeds `1`;
on a cache hit it returns the previously cached polygon and leaves the state
unchanged, and the hit result is independent of the radius and boundary
arguments — in particular a call with a different radius returns the cached
polygon computed with the old radius. -/
theorem get_vision_cache_policy (nc : Point α → Point α → α → Point α) (s : Vision α)
    (eye : Point α) (r r' : α) (b b' : List (Point α)) (c : Cache α) :
    (s.cached = some c → lengthSq (vsub c.position eye) ≤ 1 →
      get_vision nc s eye r b = (some c.vision, s) ∧
        get_vision nc s eye r' b' = get_vision nc s eye r b) ∧
      (s.cached = none ∨ s.cached = some c ∧ 1 < lengthSq (vsub c.position eye) →
        get_vision nc s eye r b =
          (some (calcPoly nc s eye r b), (calculate nc s eye r b).2)) := by
  constructor
  · intro hc hle
    have hnr : needs_recalc s eye = false := by
      simp only [needs_recalc, hc, decide_eq_false_iff_not, not_lt]
      exact hle
    constructor
    · simp [get_vision, hnr, hc]
    · simp [get_vision, hnr, hc]
  · intro hmiss
    have hnr : needs_recalc s eye = true := by
      rcases hmiss with hnone | ⟨hc', hgt⟩
      · simp [needs_recalc, hnone]
      · simp [needs_recalc, hc', hgt]
    simp [get_vision, hnr, calculate]

/-- C10 (implicit): on a cache hit the value returned by `get_vision` is
independent of the boundary argument: two calls in that state that differ
only in the boundary return the same cached polygon, so changing the
boundary alone never triggers recomputation and the result may reflect a
stale boundary. -/
theorem get_vision_boundary_independent (nc : Point α → Point α → α → Point α)
    (s : Vision α) (eye : Point α) (r : α) (b1 b2 : List (Point α)) (c : Cache α)
    (hc : s.cached = some c) (hle : lengthSq (vsub c.position eye) ≤ 1) :
    get_vision nc s eye r b1 = get_vision nc s eye r b2 ∧
      get_vision nc s eye r b1 = (some c.vision, s) := by
  have hnr : needs_recalc s eye = false := by
    simp only [needs_recalc, hc, decide_eq_false_iff_not, not_lt]
    exact hle
  constructor
  · simp [get_vision, hnr]
  · simp [get_vision, hnr, hc]

theorem foldl_append_eq_flatten {β : Type*} (xs : List (List β)) :
    ∀ x : List β, xs.foldl (· ++ ·) x = x ++ xs.flatten := by
  induction xs with
  | nil => intro x; simp
  | cons y ys ih => intro x; simp [ih]

theorem flatten_list_eq_flatten {β : Type*} : ∀ l : List (List β), flatten_list l = l.flatten
  | [] => rfl
  | x :: xs => by simp only [flatten_list, foldl_append_eq_flatten, List.flatten_cons]

theorem mem_strip_segs : ∀ (strip : List (Point α)) (s : Seg α),
    s ∈ strip_segs strip ↔ ∃ i : Nat, strip[i]? = some s.1 ∧ strip[i + 1]? = some s.2
  | [], s => by simp [strip_segs]
  | [a], s => by simp [strip_segs]
  | a :: b :: rest, s => by
    rw [show strip_segs (a :: b :: rest) = (a, b) :: strip_segs (b :: rest) from rfl,
      List.mem_cons, mem_strip_segs (b :: rest) s]
    constructor
    · rintro (rfl | ⟨i, h1, h2⟩)
      · exact ⟨0, by simp, by simp⟩
      · exact ⟨i + 1, by simpa using h1, by simpa using h2⟩
    · rintro ⟨i, h1, h2⟩
      cases i with
      | zero =>
        left
        simp only [List.getElem?_cons_zero, List.getElem?_cons_succ, Option.some.injEq] at h1 h2
        rw [Prod.ext_iff]
        exact ⟨h1.symm, h2.symm⟩
      | succ i => exact Or.inr ⟨i, by simpa using h1, by simpa using h2⟩

/-- C8: `set_obstructors` builds the obstructor index so that its point set
is the union of all input polyline vertices, its segment list is exactly
each polyline's consecutive vertex pairs concatenated (so every segment is a
consecutive pair inside a single polyline: no cross-polyline edge and no
closing edge), a polyline with fewer than 2 points contributes no segments
and only its points, and the cache is reset. -/
theorem set_obstructors_spec (obstructors : List (List (Point α))) :
    (set_obstructors obstructors).obs_points = obstructors.flatten ∧
      (∀ p : Point α, p ∈ (set_obstructors obstructors).obs_points ↔
        ∃ strip ∈ obstructors, p ∈ strip) ∧
      (set_obstructors obstructors).obs_segs = (obstructors.map strip_segs).flatten ∧
      (∀ s : Seg α, s ∈ (set_obstructors obstructors).obs_segs ↔
        ∃ strip ∈ obstructors, ∃ i : Nat, strip[i]? = some s.1 ∧ strip[i + 1]? = some s.2) ∧
      (∀ strip : List (Point α), strip.length < 2 → strip_segs strip = []) ∧
      (set_obstructors obstructors).cached = none := by
  refine ⟨flatten_list_eq_flatten _, ?_, flatten_list_eq_flatten _, ?_, ?_, rfl⟩
  · intro p
    rw [show (set_obstructors obstructors).obs_points = flatten_list obstructors from rfl,
      flatten_list_eq_flatten, List.mem_flatten]
  · intro s
    rw [show (set_obstructors obstructors).obs_segs =
        flatten_list (obstructors.map strip_segs) from rfl,
      flatten_list_eq_flatten, List.mem_flatten]
    constructor
    · rintro ⟨l, hl, hs⟩
      obtain ⟨strip, hstrip, rfl⟩ := List.mem_map.1 hl
      exact ⟨strip, hstrip, (mem_strip_segs strip s).1 hs⟩
    · rintro ⟨strip, hstrip, hi⟩
      exact ⟨strip_segs strip, List.mem_map.2 ⟨strip, hstrip, rfl⟩,
        (mem_strip_segs strip s).2 hi⟩
  · intro strip hlen
    match strip, hlen with
    | [], _ => rfl
    | [a], _ => rfl

/-- Witness for C7 at the no-obstructor square scenario (4 post-sweep
vertices, condition false, polygon returned unchanged). -/
theorem calculate_wrap_fixup_witness :
    1 < (pre_fix_points (fun _ c _ => c) ([] : List (Seg ℚ)) [] [] ((0 : ℚ), (0 : ℚ)) 5
        [(-5, -5), (5, -5), (5, 5), (-5, 5)]).length ∧
      calculate_core (fun _ c _ => c) ([] : List (Seg ℚ)) [] [] ((0 : ℚ), (0 : ℚ)) 5
          [(-5, -5), (5, -5), (5, 5), (-5, 5)] =
        (if segment_in_obs []
            (pyGet (pre_fix_points (fun _ c _ => c) ([] : List (Seg ℚ)) [] [] ((0 : ℚ), (0 : ℚ)) 5
              [(-5, -5), (5, -5), (5, 5), (-5, 5)]) (-1),
              pyGet (pre_fix_points (fun _ c _ => c) ([] : List (Seg ℚ)) [] [] ((0 : ℚ), (0 : ℚ)) 5
                [(-5, -5), (5, -5), (5, 5), (-5, 5)]) 1) then
          pyGet (pre_fix_points (fun _ c _ => c) ([] : List (Seg ℚ)) [] [] ((0 : ℚ), (0 : ℚ)) 5
              [(-5, -5), (5, -5), (5, 5), (-5, 5)]) 1 ::
            pyGet (pre_fix_points (fun _ c _ => c) ([] : List (Seg ℚ)) [] [] ((0 : ℚ), (0 : ℚ)) 5
                [(-5, -5), (5, -5), (5, 5), (-5, 5)]) 0 ::
              (pre_fix_points (fun _ c _ => c) ([] : List (Seg ℚ)) [] [] ((0 : ℚ), (0 : ℚ)) 5
                [(-5, -5), (5, -5), (5, 5), (-5, 5)]).drop 2
        else pre_fix_points (fun _ c _ => c) ([] : List (Seg ℚ)) [] [] ((0 : ℚ), (0 : ℚ)) 5
          [(-5, -5), (5, -5), (5, 5), (-5, 5)]) :=
  ⟨by decide, calculate_wrap_fixup _ _ _ _ _ _ _ (by decide)⟩

/-- Witness for C6: a cache hit at squared displacement exactly 1 returns
the cached polygon for two different radius/boundary arguments. -/
theorem get_vision_cache_policy_witness :
    (⟨[], [], some ⟨((0 : ℚ), (0 : ℚ)), 5, [((1 : ℚ), (2 : ℚ))]⟩⟩ : Vision ℚ).cached =
        some ⟨((0 : ℚ), (0 : ℚ)), 5, [((1 : ℚ), (2 : ℚ))]⟩ ∧
      lengthSq (vsub ((0 : ℚ), (0 : ℚ)) ((1 : ℚ), (0 : ℚ))) ≤ 1 ∧
      (get_vision (fun _ c _ => c)
            (⟨[], [], some ⟨((0 : ℚ), (0 : ℚ)), 5, [((1 : ℚ), (2 : ℚ))]⟩⟩ : Vision ℚ)
            ((1 : ℚ), (0 : ℚ)) 7 [] =
          (some [((1 : ℚ), (2 : ℚ))],
            (⟨[], [], some ⟨((0 : ℚ), (0 : ℚ)), 5, [((1 : ℚ), (2 : ℚ))]⟩⟩ : Vision ℚ)) ∧
        get_vision (fun _ c _ => c)
            (⟨[], [], some ⟨((0 : ℚ), (0 : ℚ)), 5, [((1 : ℚ), (2 : ℚ))]⟩⟩ : Vision ℚ)
            ((1 : ℚ), (0 : ℚ)) 3 [((9 : ℚ), (9 : ℚ))] =
          get_vision (fun _ c _ => c)
            (⟨[], [], some ⟨((0 : ℚ), (0 : ℚ)), 5, [((1 : ℚ), (2 : ℚ))]⟩⟩ : Vision ℚ)
            ((1 : ℚ), (0 : ℚ)) 7 []) :=
  ⟨rfl, by decide,
    (get_vision_cache_policy (fun _ c _ => c)
        (⟨[], [], some ⟨((0 : ℚ), (0 : ℚ)), 5, [((1 : ℚ), (2 : ℚ))]⟩⟩ : Vision ℚ)
        ((1 : ℚ), (0 : ℚ)) 7 3 [] [((9 : ℚ), (9 : ℚ))]
        ⟨((0 : ℚ), (0 : ℚ)), 5, [((1 : ℚ), (2 : ℚ))]⟩).1 rfl (by decide)⟩

/-- Witness for C10: a cache hit returns the cached polygon for two
different boundary arguments. -/
theorem get_vision_boundary_independent_witness :
    (⟨[], [], some ⟨((2 : ℚ), (3 : ℚ)), 1, [((7 : ℚ), (8 : ℚ))]⟩⟩ : Vision ℚ).cached =
        some ⟨((2 : ℚ), (3 : ℚ)), 1, [((7 : ℚ), (8 : ℚ))]⟩ ∧
      lengthSq (vsub ((2 : ℚ), (3 : ℚ)) ((2 : ℚ), (3 : ℚ))) ≤ 1 ∧
      (get_vision (fun _ c _ => c)
            (⟨[], [], some ⟨((2 : ℚ), (3 : ℚ)), 1, [((7 : ℚ), (8 : ℚ))]⟩⟩ : Vision ℚ)
            ((2 : ℚ), (3 : ℚ)) 1 [((1 : ℚ), (1 : ℚ))] =
          get_vision (fun _ c _ => c)
            (⟨[], [], some ⟨((2 : ℚ), (3 : ℚ)), 1, [((7 : ℚ), (8 : ℚ))]⟩⟩ : Vision ℚ)
            ((2 : ℚ), (3 : ℚ)) 1 [((2 : ℚ), (2 : ℚ)), ((3 : ℚ), (3 : ℚ))] ∧
        get_vision (fun _ c _ => c)
            (⟨[], [], some ⟨((2 : ℚ), (3 : ℚ)), 1, [((7 : ℚ), (8 : ℚ))]⟩⟩ : Vision ℚ)
            ((2 : ℚ), (3 : ℚ)) 1 [((1 : ℚ), (1 : ℚ))] =
          (some [((7 : ℚ), (8 : ℚ))],
            (⟨[], [], some ⟨((2 : ℚ), (3 : ℚ)), 1, [((7 : ℚ), (8 : ℚ))]⟩⟩ : Vision ℚ))) :=
  ⟨rfl, by decide,
    get_vision_boundary_independent (fun _ c _ => c)
      (⟨[], [], some ⟨((2 : ℚ), (3 : ℚ)), 1, [((7 : ℚ), (8 : ℚ))]⟩⟩ : Vision ℚ)
      ((2 : ℚ), (3 : ℚ)) 1 [((1 : ℚ), (1 : ℚ))] [((2 : ℚ), (2 : ℚ)), ((3 : ℚ), (3 : ℚ))]
      ⟨((2 : ℚ), (3 : ℚ)), 1, [((7 : ℚ), (8 : ℚ))]⟩ rfl (by decide)⟩

/-- Witness for C8 at two concrete polylines: the segment list is the two
consecutive pairs of the first polyline only, and the singleton polyline's
point is indexed. -/
theorem set_obstructors_spec_witness :
    (set_obstructors [[((1 : ℚ), (1 : ℚ)), (2, 2), (3, 3)], [(9, 9)]]).obs_segs =
        [(((1 : ℚ), (1 : ℚ)), ((2 : ℚ), (2 : ℚ))), ((2, 2), (3, 3))] ∧
      ((9 : ℚ), (9 : ℚ)) ∈
        (set_obstructors [[((1 : ℚ), (1 : ℚ)), (2, 2), (3, 3)], [(9, 9)]]).obs_points :=
  ⟨((set_obstructors_spec [[((1 : ℚ), (1 : ℚ)), (2, 2), (3, 3)], [(9, 9)]]).2.2.1).trans
      (by decide),
    ((set_obstructors_spec [[((1 : ℚ), (1 : ℚ)), (2, 2), (3, 3)], [(9, 9)]]).2.1 _).mpr
      ⟨[(9, 9)], by decide, by decide⟩⟩

theorem check_visibility_eq_true_iff (ifn : Point α → Point α → Point α → Point α → Bool)
    (eye : Point α) (rsq : α) (bpts : List (Point α)) (near : List (Seg α)) (p : Point α) :
    check_visibility ifn eye rsq bpts near p = true ↔
      ((p ∈ bpts ∨ lengthSq (vsub eye p) ≤ rsq) ∧
        ∀ s ∈ near, ifn eye p s.1 s.2 = true → s.1 = p ∨ s.2 = p) := by
  rw [check_visibility]
  split_ifs with h
  · constructor
    · intro hf; exact absurd hf (by simp)
    · rintro ⟨hor, -⟩
      rcases hor with hb | hle
      · exact absurd hb h.2
      · exact absurd hle (not_le.mpr h.1)
  · have hfirst : p ∈ bpts ∨ lengthSq (vsub eye p) ≤ rsq := by
      by_cases hb : p ∈ bpts
      · exact Or.inl hb
      · right
        by_contra hgt
        exact h ⟨not_le.1 hgt, hb⟩
    rw [List.all_eq_true]
    constructor
    · intro hall
      refine ⟨hfirst, fun s hs hint => ?_⟩
      have hx := hall s hs
      simp only [Bool.or_eq_true, Bool.not_eq_true', decide_eq_true_eq] at hx
      rcases hx with (hf | h1) | h2
      · rw [hint] at hf
        exact absurd hf (by simp)
      · exact Or.inl h1
      · exact Or.inr h2
    · rintro ⟨-, hseg⟩ s hs
      simp only [Bool.or_eq_true, Bool.not_eq_true', decide_eq_true_eq]
      by_cases hint : ifn eye p s.1 s.2 = true
      · rcases hseg s hs hint with h1 | h2
        · exact Or.inl (Or.inr h1)
        · exact Or.inr h2
      · exact Or.inl (Or.inl (by revert hint; cases ifn eye p s.1 s.2 <;> simp))

/-- C1: for every point `p` in the union of obstructor points and boundary
points, `calculate` includes `p` in `visible_points` if and only if (`p` is
a boundary point OR the squared distance from the eye to `p` is at most
`radius²`) AND every segment of the radius-pruned segment list whose
intersection test with the sight line `eye→p` fires has one of its own
endpoints equal to `p` (a sight line grazing the endpoint it targets is not
self-blocking).  Stated for an arbitrary external intersection predicate
`ifn`, of which the code's `Math.check_intersect_lineseg_lineseg` is one
instance. -/
theorem visible_points_membership (ifn : Point α → Point α → Point α → Point α → Bool)
    (eye : Point α) (radius : α) (bpts obs_pts : List (Point α)) (segs : List (Seg α))
    (p : Point α) (hp : p ∈ obs_pts ++ bpts) :
    p ∈ visible_points_of ifn eye (radius * radius) bpts obs_pts
        (segs.filter (lineseg_in_radius eye (radius * radius))) ↔
      ((p ∈ bpts ∨ lengthSq (vsub eye p) ≤ radius * radius) ∧
        ∀ s ∈ segs.filter (lineseg_in_radius eye (radius * radius)),
          ifn eye p s.1 s.2 = true → s.1 = p ∨ s.2 = p) := by
  rw [visible_points_of, List.mem_filter]
  have hmem : p ∈ pySet (obs_pts ++ bpts) := by
    rw [pySet, List.mem_dedup]
    exact hp
  simp only [hmem, true_and]
  exact check_visibility_eq_true_iff ifn eye (radius * radius) bpts _ p

/-- Witness for C1: the obstructor point `(2, 0)` is within radius and
unblocked, hence visible. -/
theorem visible_points_membership_witness :
    ((2 : ℚ), (0 : ℚ)) ∈ [((2 : ℚ), (0 : ℚ))] ++ [((1 : ℚ), (1 : ℚ))] ∧
      (((2 : ℚ), (0 : ℚ)) ∈ visible_points_of check_intersect_lineseg_lineseg
          ((0 : ℚ), (0 : ℚ)) (5 * 5) [((1 : ℚ), (1 : ℚ))] [((2 : ℚ), (0 : ℚ))]
          (([] : List (Seg ℚ)).filter (lineseg_in_radius ((0 : ℚ), (0 : ℚ)) (5 * 5))) ↔
        ((((2 : ℚ), (0 : ℚ)) ∈ [((1 : ℚ), (1 : ℚ))] ∨
            lengthSq (vsub ((0 : ℚ), (0 : ℚ)) ((2 : ℚ), (0 : ℚ))) ≤ 5 * 5) ∧
          ∀ s ∈ ([] : List (Seg ℚ)).filter (lineseg_in_radius ((0 : ℚ), (0 : ℚ)) (5 * 5)),
            check_intersect_lineseg_lineseg ((0 : ℚ), (0 : ℚ)) ((2 : ℚ), (0 : ℚ)) s.1 s.2 = true →
              s.1 = ((2 : ℚ), (0 : ℚ)) ∨ s.2 = ((2 : ℚ), (0 : ℚ)))) :=
  ⟨by decide, visible_points_membership check_intersect_lineseg_lineseg ((0 : ℚ), (0 : ℚ)) 5
    [((1 : ℚ), (1 : ℚ))] [((2 : ℚ), (0 : ℚ))] [] ((2 : ℚ), (0 : ℚ)) (by decide)⟩

theorem lengthSq_nonneg (v : Point α) : 0 ≤ lengthSq v :=
  add_nonneg (mul_self_nonneg _) (mul_self_nonneg _)

theorem quad_min_clamp (A B : α) (hA : 0 ≤ A) (hAB : A = 0 → B = 0) (t : α)
    (h0 : 0 ≤ t) (h1 : t ≤ 1) :
    A * max 0 (min 1 (B / A)) ^ 2 - 2 * B * max 0 (min 1 (B / A)) ≤
      A * t ^ 2 - 2 * B * t := by
  rcases eq_or_lt_of_le hA with hA0 | hApos
  · have hB : B = 0 := hAB hA0.symm
    rw [hB, ← hA0]
    simp
  · have hu : B = A * (B / A) := by field_simp
    rcases le_or_lt (B / A) 0 with hu0 | hupos
    · rw [min_eq_right (le_trans hu0 zero_le_one), max_eq_left hu0]
      have hBle : B ≤ 0 := by
        rw [hu]
        exact mul_nonpos_of_nonneg_of_nonpos hApos.le hu0
      nlinarith [mul_nonneg (mul_nonneg hApos.le h0) h0, mul_nonneg (neg_nonneg.mpr hBle) h0]
    · rcases le_or_lt 1 (B / A) with hu1 | hult
      · rw [min_eq_left hu1, max_eq_right zero_le_one]
        have hBA : A ≤ B := by
          rw [hu]
          nlinarith
        have hAt : A * t ≤ B := by nlinarith
        nlinarith [mul_nonneg (sub_nonneg.mpr h1) (sub_nonneg.mpr hBA),
          mul_nonneg (sub_nonneg.mpr h1) (sub_nonneg.mpr hAt)]
      · rw [min_eq_right hult.le, max_eq_right hupos.le]
        nlinarith [mul_nonneg hApos.le (sq_nonneg (t - B / A))]

theorem dist_seg_le (p a b : Point α) (t : α) (h0 : 0 ≤ t) (h1 : t ≤ 1) :
    distance_point_lineseg_squared p a b ≤
      lengthSq (vsub p (vadd a (smul t (vsub b a)))) := by
  have hA : 0 ≤ lengthSq (vsub b a) := lengthSq_nonneg _
  have hAB : lengthSq (vsub b a) = 0 →
      (p.1 - a.1) * (b.1 - a.1) + (p.2 - a.2) * (b.2 - a.2) = 0 := by
    intro h
    have hx : (b.1 - a.1) * (b.1 - a.1) = 0 := by
      simp only [lengthSq, vsub] at h
      nlinarith [mul_self_nonneg (b.1 - a.1), mul_self_nonneg (b.2 - a.2)]
    have hy : (b.2 - a.2) * (b.2 - a.2) = 0 := by
      simp only [lengthSq, vsub] at h
      nlinarith [mul_self_nonneg (b.1 - a.1), mul_self_nonneg (b.2 - a.2)]
    rw [mul_self_eq_zero.1 hx, mul_self_eq_zero.1 hy]
    ring
  have hq : ∀ s : α, lengthSq (vsub p (vadd a (smul s (vsub b a)))) =
      lengthSq (vsub b a) * s ^ 2 -
        2 * ((p.1 - a.1) * (b.1 - a.1) + (p.2 - a.2) * (b.2 - a.2)) * s +
        lengthSq (vsub p a) := by
    intro s
    simp only [lengthSq, vsub, vadd, smul]
    ring
  rw [distance_point_lineseg_squared]
  rw [hq, hq]
  have := quad_min_clamp (lengthSq (vsub b a))
    ((p.1 - a.1) * (b.1 - a.1) + (p.2 - a.2) * (b.2 - a.2)) hA hAB t h0 h1
  linarith

theorem line_inter_point (p1 p2 q1 q2 : Point α) (u1 u2 : α)
    (h : intersect_line_line_u p1 p2 q1 q2 = some (u1, u2)) :
    vadd p1 (smul u1 (vsub p2 p1)) = vadd q1 (smul u2 (vsub q2 q1)) := by
  rw [intersect_line_line_u] at h
  by_cases hd0 : (q2.2 - q1.2) * (p2.1 - p1.1) - (q2.1 - q1.1) * (p2.2 - p1.2) = 0
  · rw [if_pos hd0] at h
    exact absurd h (by simp)
  · rw [if_neg hd0] at h
    have h12 := Option.some.inj h
    have hu1 : ((q2.1 - q1.1) * (p1.2 - q1.2) - (q2.2 - q1.2) * (p1.1 - q1.1)) /
        ((q2.2 - q1.2) * (p2.1 - p1.1) - (q2.1 - q1.1) * (p2.2 - p1.2)) = u1 :=
      congrArg Prod.fst h12
    have hu2 : ((p2.1 - p1.1) * (p1.2 - q1.2) - (p2.2 - p1.2) * (p1.1 - q1.1)) /
        ((q2.2 - q1.2) * (p2.1 - p1.1) - (q2.1 - q1.1) * (p2.2 - p1.2)) = u2 :=
      congrArg Prod.snd h12
    rw [Prod.ext_iff]
    constructor
    · simp only [vadd, smul, vsub]
      rw [← hu1, ← hu2]
      field_simp
      ring
    · simp only [vadd, smul, vsub]
      rw [← hu1, ← hu2]
      field_simp
      ring

theorem check_intersect_dist_le (eye p a b : Point α) (rsq : α)
    (hI : check_intersect_lineseg_lineseg eye p a b = true)
    (hp : lengthSq (vsub eye p) ≤ rsq) :
    distance_point_lineseg_squared eye a b ≤ rsq := by
  rw [check_intersect_lineseg_lineseg] at hI
  cases heq : intersect_line_line_u eye p a b with
  | none =>
    rw [heq] at hI
    exact absurd hI (by simp)
  | some uv =>
    obtain ⟨u1, u2⟩ := uv
    rw [heq] at hI
    obtain ⟨h10, h11, h20, h21⟩ := of_decide_eq_true hI
    have hX := line_inter_point eye p a b u1 u2 heq
    have hXd : lengthSq (vsub eye (vadd eye (smul u1 (vsub p eye)))) =
        u1 ^ 2 * lengthSq (vsub eye p) := by
      simp only [lengthSq, vsub, vadd, smul]
      ring
    calc distance_point_lineseg_squared eye a b
        ≤ lengthSq (vsub eye (vadd a (smul u2 (vsub b a)))) := dist_seg_le eye a b u2 h20 h21
      _ = lengthSq (vsub eye (vadd eye (smul u1 (vsub p eye)))) := by rw [hX]
      _ = u1 ^ 2 * lengthSq (vsub eye p) := hXd
      _ ≤ rsq := by
          nlinarith [lengthSq_nonneg (vsub eye p),
            mul_nonneg (sub_nonneg.mpr h11) (by linarith : (0 : α) ≤ 1 + u1)]

/-- Under the intended binding of the distance primitive, pruning the
obstructor segments to those within the radius never changes the visibility
status of a candidate point within the radius: for `p` with squared
distance from the eye at most `rsq`, `check_visibility` computes the same
answer with the pruned and with the full segment list, because a segment
farther than the radius cannot intersect a sight line that stays within the
radius. -/
theorem prune_preserves_in_radius_visibility (eye : Point α) (rsq : α)
    (bpts : List (Point α)) (segs : List (Seg α)) (p : Point α)
    (hp : lengthSq (vsub eye p) ≤ rsq) :
    check_visibility check_intersect_lineseg_lineseg eye rsq bpts
        (segs.filter (lineseg_in_radius eye rsq)) p =
      check_visibility check_intersect_lineseg_lineseg eye rsq bpts segs p := by
  rw [check_visibility, check_visibility]
  split_ifs with h
  · rfl
  · rw [Bool.eq_iff_iff, List.all_eq_true, List.all_eq_true]
    constructor
    · intro hall s hs
      by_cases hr : lineseg_in_radius eye rsq s = true
      · exact hall s (List.mem_filter.2 ⟨hs, hr⟩)
      · have hgt : rsq < distance_point_lineseg_squared eye s.1 s.2 := by
          rw [lineseg_in_radius, decide_eq_true_eq] at hr
          exact not_le.1 hr
        have hni : check_intersect_lineseg_lineseg eye p s.1 s.2 = false := by
          cases hcase : check_intersect_lineseg_lineseg eye p s.1 s.2 with
          | false => rfl
          | true =>
            have := check_intersect_dist_le eye p s.1 s.2 rsq hcase hp
            linarith
        simp [hni]
    · intro hall s hs
      exact hall s (List.mem_of_mem_filter hs)

/-- Instance of `prune_preserves_in_radius_visibility`: a far vertical
segment is pruned and the in-radius point `(1, 0)` has the same visibility
status either way. -/
theorem prune_preserves_in_radius_visibility_witness :
    lengthSq (vsub ((0 : ℚ), (0 : ℚ)) ((1 : ℚ), (0 : ℚ))) ≤ 25 ∧
      check_visibility check_intersect_lineseg_lineseg ((0 : ℚ), (0 : ℚ)) 25 []
          ([(((10 : ℚ), (0 : ℚ)), ((10 : ℚ), (1 : ℚ)))].filter
            (lineseg_in_radius ((0 : ℚ), (0 : ℚ)) 25)) ((1 : ℚ), (0 : ℚ)) =
        check_visibility check_intersect_lineseg_lineseg ((0 : ℚ), (0 : ℚ)) 25 []
          [(((10 : ℚ), (0 : ℚ)), ((10 : ℚ), (1 : ℚ)))] ((1 : ℚ), (0 : ℚ)) :=
  ⟨by decide, prune_preserves_in_radius_visibility ((0 : ℚ), (0 : ℚ)) 25 []
    [(((10 : ℚ), (0 : ℚ)), ((10 : ℚ), (1 : ℚ)))] ((1 : ℚ), (0 : ℚ)) (by decide)⟩

/-- Under the intended binding of the distance primitive, pruning would
still not be semantics-preserving: with the eye at `(0, 0)`, radius `5`,
the boundary the square of half-width 5 (which encloses the eye), and one
obstructor segment from `(4.9, 4.5)` to `(4.9, 4.95)` — farther than the
radius from the eye, hence pruned — the intended-pruning run keeps the
out-of-radius boundary corner `(5, 5)` visible (4-vertex polygon) while the
unpruned variant occludes it (3-vertex polygon): boundary vertices escape
the radius test in `check_visibility` (line 94), and far segments can
occlude them. -/
theorem intended_prune_changes_result :
    ¬ ∀ (nc : Point ℚ → Point ℚ → ℚ → Point ℚ) (s : Vision ℚ) (eye : Point ℚ)
        (radius : ℚ) (boundary : List (Point ℚ)),
        0 < radius → encloses boundary eye = true →
        calcPoly nc s eye radius boundary = calcPolyUnpruned nc s eye radius boundary := by
  intro hall
  have h := hall (fun _ c _ => c) (set_obstructors [[(49 / 10, 9 / 2), (49 / 10, 99 / 20)]])
    ((0 : ℚ), (0 : ℚ)) 5 [(-5, -5), (5, -5), (5, 5), (-5, 5)] (by norm_num) (by decide)
  exact absurd h (by decide)

theorem calcPoly_checked_eq_none (nc : Point α → Point α → α → Point α) (s : Vision α)
    (eye : Point α) (radius : α) (boundary : List (Point α)) (h : s.obs_segs ≠ []) :
    calcPoly_checked nc s eye radius boundary = none := by
  rw [calcPoly_checked]
  cases hcase : s.obs_segs with
  | nil => exact absurd hcase h
  | cons x xs => rfl

/-- C1 (code defect): on every nonempty obstructor segment list, `calculate`
raises before `visible_points` is ever built: the radius pruning at
line 106 invokes `lineseg_in_radius` (lines 103-104), whose body names the
unbound `distance_point_lineseg_squared` (the file's only import is
`import Math`), raising `NameError` — so no run exists on which the claimed
membership equivalence could hold.  Under the evidently intended binding
`Math.distance_point_lineseg_squared`, the equivalence itself is
`visible_points_membership`. -/
theorem calculate_crashes_on_nonempty_obstructors (nc : Point α → Point α → α → Point α)
    (s : Vision α) (eye : Point α) (radius : α) (boundary : List (Point α))
    (h : s.obs_segs ≠ []) :
    calcPoly_checked nc s eye radius boundary = none :=
  calcPoly_checked_eq_none nc s eye radius boundary h

/-- Witness for C1's failing input: one obstructor polyline with two
vertices makes the segment list nonempty, and the staged `calculate`
produces no polygon. -/
theorem calculate_crashes_on_nonempty_obstructors_witness :
    (set_obstructors [[(49 / 10, 9 / 2), (49 / 10, 99 / 20)]] : Vision ℚ).obs_segs ≠ [] ∧
      calcPoly_checked (fun _ c _ => c)
        (set_obstructors [[(49 / 10, 9 / 2), (49 / 10, 99 / 20)]]) ((0 : ℚ), (0 : ℚ)) 5
        [(-5, -5), (5, -5), (5, 5), (-5, 5)] = none :=
  ⟨by decide, calculate_crashes_on_nonempty_obstructors (fun _ c _ => c)
    (set_obstructors [[(49 / 10, 9 / 2), (49 / 10, 99 / 20)]]) ((0 : ℚ), (0 : ℚ)) 5
    [(-5, -5), (5, -5), (5, 5), (-5, 5)] (by decide)⟩

/-- Counterexample to C3 as stated: at a preconditions-satisfying input
with one obstructor segment `(4.9, 4.5)-(4.9, 4.95)`, eye `(0, 0)`,
radius `5` and the square boundary of half-width 5, `calculate` run with
the pruned segment list produces no vertex sequence at all — the pruning
step itself raises `NameError` at line 106, via the unbound
`distance_point_lineseg_squared` at line 104 — while the variant that uses
the full unpruned segment list everywhere (and hence never calls the broken
helper) completes; so the claimed equality of vertex sequences fails. -/
theorem prune_neutrality_refuted :
    ¬ ∀ (nc : Point ℚ → Point ℚ → ℚ → Point ℚ) (s : Vision ℚ) (eye : Point ℚ)
        (radius : ℚ) (boundary : List (Point ℚ)),
        0 < radius → encloses boundary eye = true →
        calcPoly_checked nc s eye radius boundary =
          some (calcPolyUnpruned nc s eye radius boundary) := by
  intro hall
  have h := hall (fun _ c _ => c) (set_obstructors [[(49 / 10, 9 / 2), (49 / 10, 99 / 20)]])
    ((0 : ℚ), (0 : ℚ)) 5 [(-5, -5), (5, -5), (5, 5), (-5, 5)] (by norm_num) (by decide)
  rw [calcPoly_checked_eq_none (fun _ c _ => c)
    (set_obstructors [[(49 / 10, 9 / 2), (49 / 10, 99 / 20)]]) ((0 : ℚ), (0 : ℚ)) 5
    [(-5, -5), (5, -5), (5, 5), (-5, 5)] (by decide)] at h
  exact Option.noConfusion h

/-- C3 (amended): `calculate` run with the pruned segment list produces a
vertex sequence — then necessarily equal to the unpruned variant's — if and
only if the obstructor segment list is empty: for a nonempty list the
pruning step itself raises `NameError` (line 104 calls the unbound name
`distance_point_lineseg_squared`) before any of the polygon computation
runs, while on the empty list the pruned and full lists coincide
trivially. -/
theorem prune_neutral_iff_no_obstructor_segs (nc : Point α → Point α → α → Point α)
    (s : Vision α) (eye : Point α) (radius : α) (boundary : List (Point α)) :
    calcPoly_checked nc s eye radius boundary =
        some (calcPolyUnpruned nc s eye radius boundary) ↔ s.obs_segs = [] := by
  constructor
  · intro h
    by_contra hne
    rw [calcPoly_checked_eq_none nc s eye radius boundary hne] at h
    exact Option.noConfusion h
  · intro h
    obtain ⟨op, os, oc⟩ := s
    have h2 : os = [] := h
    subst h2
    rfl

/-- Witness for the amended C3: with no obstructors the staged `calculate`
completes and returns exactly the unpruned variant's polygon. -/
theorem prune_neutral_iff_no_obstructor_segs_witness :
    (set_obstructors ([] : List (List (Point ℚ)))).obs_segs = [] ∧
      calcPoly_checked (fun _ c _ => c) (set_obstructors ([] : List (List (Point ℚ))))
          ((0 : ℚ), (0 : ℚ)) 5 [(-5, -5), (5, -5), (5, 5), (-5, 5)] =
        some (calcPolyUnpruned (fun _ c _ => c) (set_obstructors ([] : List (List (Point ℚ))))
          ((0 : ℚ), (0 : ℚ)) 5 [(-5, -5), (5, -5), (5, 5), (-5, 5)]) :=
  ⟨rfl, (prune_neutral_iff_no_obstructor_segs (fun _ c _ => c)
    (set_obstructors ([] : List (List (Point ℚ)))) ((0 : ℚ), (0 : ℚ)) 5
    [(-5, -5), (5, -5), (5, 5), (-5, 5)]).mpr rfl⟩

theorem sweepStep_pts_subset (ctx : SweepCtx α) (st : SweepState α) (h : st.i < st.pts.length)
    (x : Point α) (hx : x ∈ (sweepStep ctx st).pts) :
    x ∈ st.pts ∨ ∃ c0 : Point α, x = clamp_closest ctx c0 := by
  rw [sweepStep] at hx
  split at hx
  · exact Or.inl hx
  · dsimp only at hx
    split at hx
    · split at hx
      · have hx1 := List.mem_of_mem_erase hx
        rcases (List.mem_insertIdx (le_of_lt h)).1 hx1 with heq | hmem
        · exact Or.inr ⟨_, heq⟩
        · exact Or.inl hmem
      · rcases (List.mem_insertIdx (le_of_lt h)).1 hx with heq | hmem
        · exact Or.inr ⟨_, heq⟩
        · exact Or.inl hmem
    · split at hx
      · rcases (List.mem_insertIdx (by omega)).1 hx with heq | hmem
        · exact Or.inr ⟨_, heq⟩
        · exact Or.inl hmem
      · exact Or.inl hx

theorem sweepRun_pts_subset (ctx : SweepCtx α) :
    ∀ (fuel : Nat) (st : SweepState α) (x : Point α), x ∈ (sweepRun ctx fuel st).pts →
      x ∈ st.pts ∨ ∃ c0 : Point α, x = clamp_closest ctx c0 := by
  intro fuel
  induction fuel with
  | zero => intro st x hx; exact Or.inl hx
  | succ n ih =>
    intro st x hx
    rw [sweepRun] at hx
    by_cases hlt : st.i < st.pts.length
    · rw [if_pos hlt] at hx
      rcases ih _ x hx with hmem | hcl
      · exact sweepStep_pts_subset ctx st hlt x hmem
      · exact Or.inr hcl
    · rw [if_neg hlt] at hx
      exact Or.inl hx

theorem lengthSq_normalize (u : Point ℝ) (hu : 0 < lengthSq u) :
    lengthSq (normalize u) = 1 := by
  have hs2 : Real.sqrt (lengthSq u) * Real.sqrt (lengthSq u) = lengthSq u :=
    Real.mul_self_sqrt hu.le
  have hsne : Real.sqrt (lengthSq u) ≠ 0 := ne_of_gt (Real.sqrt_pos.2 hu)
  have hexp : lengthSq (normalize u) =
      (u.1 * u.1 + u.2 * u.2) / (Real.sqrt (lengthSq u) * Real.sqrt (lengthSq u)) := by
    simp only [normalize, get_length, lengthSq]
    rw [div_mul_div_comm, div_mul_div_comm, div_add_div_same]
  rw [hexp, hs2]
  have hL : lengthSq u = u.1 * u.1 + u.2 * u.2 := rfl
  rw [← hL]
  exact div_self (ne_of_gt hu)

theorem norm_clamp_r_dist (eye c : Point ℝ) (radius : ℝ)
    (h : radius * radius < lengthSq (vsub eye c)) :
    lengthSq (vsub eye (norm_clamp_r eye c radius)) = radius * radius := by
  have hsym : lengthSq (vsub c eye) = lengthSq (vsub eye c) := by
    simp only [lengthSq, vsub]
    ring
  have hLpos : 0 < lengthSq (vsub c eye) := by
    rw [hsym]
    exact lt_of_le_of_lt (mul_self_nonneg radius) h
  have hmain : ∀ w : Point ℝ, lengthSq (vsub eye (vadd (smul radius w) eye)) =
      radius * radius * lengthSq w := by
    intro w
    simp only [lengthSq, vsub, vadd, smul]
    ring
  rw [norm_clamp_r, hmain, lengthSq_normalize _ hLpos, mul_one]

/-- C4: every vertex that the shadow-edge sweep inserts lies at distance at
most `radius` from the eye.  Over `ℝ` with the real normalize-and-scale
clamp: whenever the closest ray hit is at squared distance greater than
`radius²`, it is replaced, before insertion, by
`(closest - eye).normalize() * radius + eye`, which lies at squared distance
exactly `radius²`; consequently every point of the sweep's output list is
either an input vertex or lies within distance `radius` of the eye. -/
theorem sweep_inserted_within_radius (eye : Point ℝ) (radius : ℝ)
    (near full : List (Seg ℝ)) (bpts pts0 : List (Point ℝ)) (fuel : Nat)
    (h0 : 0 ≤ radius) :
    (∀ c : Point ℝ, radius * radius < lengthSq (vsub eye c) →
        clamp_closest (sweepCtxR eye radius near full bpts) c = norm_clamp_r eye c radius ∧
          lengthSq (vsub eye (clamp_closest (sweepCtxR eye radius near full bpts) c)) =
            radius * radius) ∧
      ∀ x ∈ (sweepRun (sweepCtxR eye radius near full bpts) fuel ⟨pts0, 0⟩).pts,
        x ∈ pts0 ∨ Real.sqrt (lengthSq (vsub eye x)) ≤ radius := by
  have hclamp : ∀ c0 : Point ℝ,
      lengthSq (vsub eye (clamp_closest (sweepCtxR eye radius near full bpts) c0)) ≤
        radius * radius := by
    intro c0
    simp only [clamp_closest, sweepCtxR]
    split_ifs with hgt
    · exact le_of_eq (norm_clamp_r_dist eye c0 radius hgt)
    · exact not_lt.1 hgt
  constructor
  · intro c hc
    have heq : clamp_closest (sweepCtxR eye radius near full bpts) c =
        norm_clamp_r eye c radius := by
      simp only [clamp_closest, sweepCtxR]
      rw [if_pos hc]
    exact ⟨heq, by rw [heq]; exact norm_clamp_r_dist eye c radius hc⟩
  · intro x hx
    rcases sweepRun_pts_subset _ fuel ⟨pts0, 0⟩ x hx with hmem | ⟨c0, rfl⟩
    · exact Or.inl hmem
    · refine Or.inr ?_
      calc Real.sqrt (lengthSq (vsub eye (clamp_closest (sweepCtxR eye radius near full bpts) c0)))
          ≤ Real.sqrt (radius * radius) := Real.sqrt_le_sqrt (hclamp c0)
        _ = radius := Real.sqrt_mul_self h0

/-- Witness for C4: clamping `(3, 4)` for an eye at the origin and radius 1
produces a point at squared distance exactly 1. -/
theorem sweep_inserted_within_radius_witness :
    (0 : ℝ) ≤ 1 ∧ (1 : ℝ) * 1 < lengthSq (vsub ((0 : ℝ), (0 : ℝ)) ((3 : ℝ), (4 : ℝ))) ∧
      lengthSq (vsub ((0 : ℝ), (0 : ℝ))
        (clamp_closest (sweepCtxR ((0 : ℝ), (0 : ℝ)) 1 [] [] []) ((3 : ℝ), (4 : ℝ)))) =
        (1 : ℝ) * 1 := by
  have h1 : (1 : ℝ) * 1 < lengthSq (vsub ((0 : ℝ), (0 : ℝ)) ((3 : ℝ), (4 : ℝ))) := by
    simp only [lengthSq, vsub]
    norm_num
  exact ⟨by norm_num, h1,
    ((sweep_inserted_within_radius ((0 : ℝ), (0 : ℝ)) 1 [] [] [] [] 0 (by norm_num)).1
      ((3 : ℝ), (4 : ℝ)) h1).2⟩

end FOV
